import Mathlib

/-!
Verification model of the MCPHelloWorldDocker repository.

The repository implements a line-delimited JSON-RPC server (class
SimpleMCPServer in src/mcpTool.hh, second part: mcpServer.hh) together with a
greeting tool (class HelloTool in src/hello.cpp).  This file gives a shallow
embedding of that code:

* Json models nlohmann::json values.  Objects are association lists kept
  sorted by key, mirroring the std::map object_t of nlohmann::json (byte
  order on keys; insertion replaces an existing key, as operator[] does).
  Numbers are modelled as integers: the protocol traffic of this repository
  uses only integer ids and string payloads, and the parser below rejects
  fraction and exponent forms instead of modelling doubles.
* parseJson and Json.dump model json::parse and json::dump.  Parse failures
  model the json::parse_error exception; diagnostic texts are abbreviations
  of the library texts.
* CppExc models the two nlohmann exception classes that the server code can
  raise: parse_error and type_error.  Functions that can throw return
  Except CppExc; an Except.error escaping to the top models an uncaught
  exception that terminates the process.
* Each server function keeps the name of the C++ member it embeds.
-/

/-- Character constants, used instead of literals for quote, backslash and
braces. -/
def quoteChar : Char := Char.ofNat 34

def backslashChar : Char := Char.ofNat 92

def lbrace : Char := Char.ofNat 123

def rbrace : Char := Char.ofNat 125

/-- Lexicographic order on character lists by code point, mirroring
std::string operator< (byte order and code-point order agree on the ASCII
keys used here, and UTF-8 byte order equals code-point order in general). -/
def strLtB : List Char → List Char → Bool
  | [], [] => false
  | [], _ :: _ => true
  | _ :: _, [] => false
  | a :: as, b :: bs =>
    if a.toNat < b.toNat then true
    else if b.toNat < a.toNat then false
    else strLtB as bs

/-- Order on strings, mirroring the std::map key order of nlohmann::json
objects. -/
def strLt (a b : String) : Bool := strLtB a.data b.data

/-- JSON values as stored by nlohmann::json.  Object fields are kept sorted
by key (std::map). -/
inductive Json where
  | null
  | bool (b : Bool)
  | num (n : Int)
  | str (s : String)
  | arr (elems : List Json)
  | obj (fields : List (String × Json))

/-- Name of a JSON type as used in nlohmann exception texts
(json::type_name). -/
def typeName : Json → String
  | .null => "null"
  | .bool _ => "boolean"
  | .num _ => "number"
  | .str _ => "string"
  | .arr _ => "array"
  | .obj _ => "object"

/-- Lookup of an object field (std::map::find). -/
def objLookup (fs : List (String × Json)) (k : String) : Option Json :=
  match fs with
  | [] => none
  | (k2, v) :: rest => if k = k2 then some v else objLookup rest k

/-- Insertion into the sorted field list of an object, replacing an existing
binding for the key (std::map operator[] followed by assignment). -/
def objInsert (k : String) (v : Json) : List (String × Json) → List (String × Json)
  | [] => [(k, v)]
  | (k2, v2) :: rest =>
    if k = k2 then (k, v) :: rest
    else if strLt k k2 then (k, v) :: (k2, v2) :: rest
    else (k2, v2) :: objInsert k v rest

/-- Object construction from an initializer list, mirroring the
nlohmann::json initializer-list constructor, which inserts each pair into a
std::map. -/
def mkObj (l : List (String × Json)) : Json :=
  Json.obj (l.foldl (fun fs kv => objInsert kv.1 kv.2 fs) [])

/-- Field access on a value known to be an object. -/
def objGet (j : Json) (k : String) : Option Json :=
  match j with
  | .obj fs => objLookup fs k
  | _ => none

/-- The nlohmann exceptions that the server code can raise. -/
inductive CppExc where
  | parseError (msg : String)
  | typeError (msg : String)
deriving DecidableEq

deriving instance DecidableEq for Except

/-- Lower-case hexadecimal digit, used by the serializer for control
characters. -/
def hexDigit (n : Nat) : Char :=
  if n < 10 then Char.ofNat (48 + n) else Char.ofNat (87 + n)

/-- Escaping of one character inside a serialized JSON string
(nlohmann dump escaping). -/
def escapeChar (c : Char) : String :=
  if c = quoteChar then String.mk [backslashChar, quoteChar]
  else if c = backslashChar then String.mk [backslashChar, backslashChar]
  else if c = '\n' then String.mk [backslashChar, 'n']
  else if c = '\t' then String.mk [backslashChar, 't']
  else if c = '\r' then String.mk [backslashChar, 'r']
  else if c = Char.ofNat 8 then String.mk [backslashChar, 'b']
  else if c = Char.ofNat 12 then String.mk [backslashChar, 'f']
  else if c.toNat < 32 then
    String.mk [backslashChar, 'u', '0', '0', hexDigit (c.toNat / 16), hexDigit (c.toNat % 16)]
  else String.singleton c

/-- Serialization of a JSON string literal with quotes and escapes. -/
def dumpString (s : String) : String :=
  String.singleton quoteChar ++ String.join (s.data.map escapeChar) ++ String.singleton quoteChar

mutual

/-- Compact serialization, modelling json::dump() with no indentation:
object fields appear in std::map key order. -/
def Json.dump : Json → String
  | .null => "null"
  | .bool b => if b then "true" else "false"
  | .num n => toString n
  | .str s => dumpString s
  | .arr es => "[" ++ dumpList es ++ "]"
  | .obj fs => "\x7b" ++ dumpFields fs ++ "\x7d"

/-- Serialization of the comma-separated elements of an array. -/
def dumpList : List Json → String
  | [] => ""
  | [j] => Json.dump j
  | j :: tl => Json.dump j ++ "," ++ dumpList tl

/-- Serialization of the comma-separated members of an object. -/
def dumpFields : List (String × Json) → String
  | [] => ""
  | [(k, v)] => dumpString k ++ ":" ++ Json.dump v
  | (k, v) :: tl => dumpString k ++ ":" ++ Json.dump v ++ "," ++ dumpFields tl

end

/-- JSON insignificant whitespace. -/
def isJsonWs (c : Char) : Bool := c = ' ' || c = '\t' || c = '\n' || c = '\r'

/-- Skipping of insignificant whitespace. -/
def skipWs : List Char → List Char
  | [] => []
  | c :: rest => if isJsonWs c then skipWs rest else c :: rest

/-- Value of a hexadecimal digit character. -/
def hexVal (c : Char) : Option Nat :=
  if 48 ≤ c.toNat ∧ c.toNat ≤ 57 then some (c.toNat - 48)
  else if 97 ≤ c.toNat ∧ c.toNat ≤ 102 then some (c.toNat - 87)
  else if 65 ≤ c.toNat ∧ c.toNat ≤ 70 then some (c.toNat - 55)
  else none

/-- Scanner for the remainder of a JSON string literal (after the opening
quote), with the standard escapes.  The \u escape is mapped directly to the
code point; surrogate pairs are not recombined (no claim depends on them).
The fuel argument only bounds recursion and is always supplied ≥ input
length + 1. -/
def parseStrChars : Nat → List Char → List Char → Except String (String × List Char)
  | 0, _, _ => .error "string too long"
  | fuel + 1, acc, cs =>
    match cs with
    | [] => .error "unterminated string"
    | c :: rest =>
      if c = quoteChar then .ok (String.mk acc.reverse, rest)
      else if c = backslashChar then
        match rest with
        | [] => .error "unterminated string"
        | e :: rest2 =>
          if e = quoteChar then parseStrChars fuel (quoteChar :: acc) rest2
          else if e = backslashChar then parseStrChars fuel (backslashChar :: acc) rest2
          else if e = '/' then parseStrChars fuel ('/' :: acc) rest2
          else if e = 'n' then parseStrChars fuel ('\n' :: acc) rest2
          else if e = 't' then parseStrChars fuel ('\t' :: acc) rest2
          else if e = 'r' then parseStrChars fuel ('\r' :: acc) rest2
          else if e = 'b' then parseStrChars fuel (Char.ofNat 8 :: acc) rest2
          else if e = 'f' then parseStrChars fuel (Char.ofNat 12 :: acc) rest2
          else if e = 'u' then
            match rest2 with
            | h1 :: h2 :: h3 :: h4 :: rest3 =>
              match hexVal h1, hexVal h2, hexVal h3, hexVal h4 with
              | some v1, some v2, some v3, some v4 =>
                parseStrChars fuel (Char.ofNat (((v1 * 16 + v2) * 16 + v3) * 16 + v4) :: acc) rest3
              | _, _, _, _ => .error "invalid unicode escape"
            | _ => .error "invalid unicode escape"
          else .error "invalid escape"
      else if c.toNat < 32 then .error "control character inside string"
      else parseStrChars fuel (c :: acc) rest

/-- Longest prefix of decimal digits. -/
def digitsSpan : List Char → List Char × List Char
  | [] => ([], [])
  | c :: rest =>
    if c.isDigit then
      let (ds, r) := digitsSpan rest
      (c :: ds, r)
    else ([], c :: rest)

/-- Numeric value of a digit list. -/
def natOfDigits (ds : List Char) : Nat :=
  ds.foldl (fun n c => n * 10 + (c.toNat - 48)) 0

/-- Parser for a JSON number.  JSON forbids leading zeros; fraction and
exponent forms are rejected here because the model restricts numbers to
integers (see the header comment). -/
def parseNum (cs : List Char) : Except String (Json × List Char) :=
  let p := match cs with
    | '-' :: rest => (true, rest)
    | _ => (false, cs)
  match digitsSpan p.2 with
  | ([], _) => .error "invalid number"
  | ('0' :: _ :: _, _) => .error "invalid number"
  | (ds, rest) =>
    let n : Int := Int.ofNat (natOfDigits ds)
    let v : Json := Json.num (if p.1 then -n else n)
    match rest with
    | [] => .ok (v, [])
    | c :: _ =>
      if c = '.' ∨ c = 'e' ∨ c = 'E' then .error "number format outside the integer model"
      else .ok (v, rest)

/-- Parser loop for the elements of a non-empty array; pv parses one value. -/
def parseArrAux : Nat → (List Char → Except String (Json × List Char)) →
    List Json → List Char → Except String (Json × List Char)
  | 0, _, _, _ => .error "nesting too deep"
  | cnt + 1, pv, acc, cs =>
    match pv cs with
    | .error m => .error m
    | .ok (j, rest) =>
      match skipWs rest with
      | ',' :: rest2 => parseArrAux cnt pv (j :: acc) rest2
      | ']' :: rest2 => .ok (.arr (j :: acc).reverse, rest2)
      | _ => .error "expected comma or closing bracket"

/-- Parser loop for the members of a non-empty object; duplicate keys
overwrite earlier ones, as in the std::map based object of nlohmann. -/
def parseObjAux : Nat → (List Char → Except String (Json × List Char)) →
    List (String × Json) → List Char → Except String (Json × List Char)
  | 0, _, _, _ => .error "nesting too deep"
  | cnt + 1, pv, fsAcc, cs =>
    match skipWs cs with
    | [] => .error "unexpected end of input"
    | c :: rest =>
      if c = quoteChar then
        match parseStrChars (rest.length + 1) [] rest with
        | .error m => .error m
        | .ok (key, rest2) =>
          match skipWs rest2 with
          | ':' :: rest3 =>
            match pv rest3 with
            | .error m => .error m
            | .ok (v, rest4) =>
              match skipWs rest4 with
              | ',' :: rest5 => parseObjAux cnt pv (objInsert key v fsAcc) rest5
              | r :: rest5 =>
                if r = rbrace then .ok (.obj (objInsert key v fsAcc), rest5)
                else .error "expected comma or closing brace"
              | [] => .error "unexpected end of input"
          | _ => .error "expected colon"
      else .error "expected string key"

/-- Recursive-descent parser for one JSON value, fuel-indexed.  Error texts
abbreviate the nlohmann parse_error diagnostics. -/
def parseVal : Nat → List Char → Except String (Json × List Char)
  | 0, _ => .error "nesting too deep"
  | fuel + 1, cs =>
    match skipWs cs with
    | [] => .error "unexpected end of input"
    | c :: rest =>
      if c = quoteChar then
        match parseStrChars (rest.length + 1) [] rest with
        | .error m => .error m
        | .ok (s, rest2) => .ok (.str s, rest2)
      else if c = '[' then
        match skipWs rest with
        | ']' :: rest2 => .ok (.arr [], rest2)
        | cs2 => parseArrAux fuel (parseVal fuel) [] cs2
      else if c = lbrace then
        match skipWs rest with
        | [] => .error "unexpected end of input"
        | r :: rest2 =>
          if r = rbrace then .ok (.obj [], rest2)
          else parseObjAux fuel (parseVal fuel) [] (r :: rest2)
      else if c = 'n' then
        match rest with
        | 'u' :: 'l' :: 'l' :: rest2 => .ok (.null, rest2)
        | _ => .error "invalid literal"
      else if c = 't' then
        match rest with
        | 'r' :: 'u' :: 'e' :: rest2 => .ok (.bool true, rest2)
        | _ => .error "invalid literal"
      else if c = 'f' then
        match rest with
        | 'a' :: 'l' :: 's' :: 'e' :: rest2 => .ok (.bool false, rest2)
        | _ => .error "invalid literal"
      else if c = '-' ∨ c.isDigit then parseNum (c :: rest)
      else .error "syntax error while parsing value"

/-- Strict parse of a whole document, modelling json::parse: the input must
hold exactly one value, surrounded only by whitespace; anything else raises
parse_error. -/
def parseJson (s : String) : Except String Json :=
  match skipWs s.data with
  | [] => .error "unexpected end of input"
  | cs =>
    match parseVal (4 * s.data.length + 16) cs with
    | .error m => .error m
    | .ok (j, rest) =>
      match skipWs rest with
      | [] => .ok j
      | _ => .error "unexpected trailing characters"

/-- Model of request.value(key, json-default): on an object it returns the
field or the default unchanged; on any other value nlohmann raises
type_error 306. -/
def Json.valueJ : Json → String → Json → Except CppExc Json
  | .obj fs, k, d => .ok ((objLookup fs k).getD d)
  | j, _, _ => .error (.typeError ("cannot use value() with " ++ typeName j))

/-- Model of request.value(key, string-default): the stored field must be a
string (otherwise nlohmann get raises type_error 302); a non-object receiver
raises type_error 306. -/
def Json.valueStr : Json → String → String → Except CppExc String
  | .obj fs, k, d =>
    match objLookup fs k with
    | some (.str s) => .ok s
    | some v => .error (.typeError ("type must be string, but is " ++ typeName v))
    | none => .ok d
  | j, _, _ => .error (.typeError ("cannot use value() with " ++ typeName j))

/-- Model of the implicit conversion std::string tmp = jsonValue used in
handleToolCall: it is get of a string and raises type_error 302 on every
non-string value. -/
def jsonToString : Json → Except CppExc String
  | .str s => .ok s
  | j => .error (.typeError ("type must be string, but is " ++ typeName j))

/-- A registered tool: the three virtual members of the McpTool interface
(mcpTool.hh).  The call member returns Except because a tool body can let a
nlohmann exception escape. -/
structure McpTool where
  name : String
  describe : String
  call : String → Except CppExc Json

/-- Insertion into the registry map, mirroring
fRegisteredTools[tool-name] = tool (std::map, sorted keys, overwrite). -/
def toolInsert (t : McpTool) : List (String × McpTool) → List (String × McpTool)
  | [] => [(t.name, t)]
  | (k, u) :: rest =>
    if t.name = k then (t.name, t) :: rest
    else if strLt t.name k then (t.name, t) :: (k, u) :: rest
    else (k, u) :: toolInsert t rest

/-- SimpleMCPServer::registerTool. -/
def registerTool (reg : List (String × McpTool)) (t : McpTool) : List (String × McpTool) :=
  toolInsert t reg

/-- Registry lookup (fRegisteredTools.find). -/
def lookupTool (reg : List (String × McpTool)) (n : String) : Option McpTool :=
  match reg with
  | [] => none
  | (k, t) :: rest => if k = n then some t else lookupTool rest n

/-- Number of registry bindings carrying a given name. -/
def countName (reg : List (String × McpTool)) (n : String) : Nat :=
  (reg.filter (fun p => p.1 = n)).length

/-- The std::map representation invariant: keys strictly increasing. -/
def regSorted (reg : List (String × McpTool)) : Prop :=
  List.Pairwise (fun a b => strLt a.1 b.1 = true) reg

/-- The server state: fServerName, fServerVersion and fRegisteredTools. -/
structure ServerState where
  serverName : String
  serverVersion : String
  tools : List (String × McpTool)

/-- SimpleMCPServer::sendResponse: the serialized success envelope written
as one output line. -/
def sendResponse (id result : Json) : String :=
  Json.dump (mkObj [("jsonrpc", .str "2.0"), ("id", id), ("result", result)])

/-- SimpleMCPServer::sendError: the serialized error envelope written as one
output line. -/
def sendError (id : Json) (code : Int) (message : String) : String :=
  Json.dump (mkObj [("jsonrpc", .str "2.0"), ("id", id),
    ("error", mkObj [("code", .num code), ("message", .str message)])])

/-- The loop body of handleToolsListRequest: parse the describe text of each
registered tool in registry order; a describe text that is not valid JSON
raises parse_error out of the handler. -/
def describeTools : List (String × McpTool) → Except CppExc (List Json)
  | [] => .ok []
  | (_, t) :: rest =>
    match parseJson t.describe with
    | .error m => .error (.parseError m)
    | .ok j =>
      match describeTools rest with
      | .error e => .error e
      | .ok ds => .ok (j :: ds)

/-- SimpleMCPServer::handleToolsListRequest. -/
def handleToolsListRequest (reg : List (String × McpTool)) (id : Json) :
    Except CppExc (List String) :=
  match describeTools reg with
  | .error e => .error e
  | .ok ds => .ok [sendResponse id (mkObj [("tools", .arr ds)])]

/-- SimpleMCPServer::handleToolCall.  The conversion of the tool return
value to std::string raises type_error on non-strings; the local try/catch
only covers the json::parse of the converted text. -/
def handleToolCall (reg : List (String × McpTool)) (id : Json) (toolName : String)
    (arguments : Json) : Except CppExc (List String) :=
  match lookupTool reg toolName with
  | none => .ok [sendError id (-32602) ("Method not found: " ++ toolName)]
  | some tool =>
    match tool.call (Json.dump arguments) with
    | .error e => .error e
    | .ok ret =>
      match jsonToString ret with
      | .error e => .error e
      | .ok toolResponse =>
        let responseJson : Json :=
          match parseJson toolResponse with
          | .ok j => j
          | .error _ => Json.str toolResponse
        .ok [sendResponse id
          (mkObj [("content", .arr [mkObj [("type", .str "text"), ("text", responseJson)]])])]

/-- The result object built by SimpleMCPServer::handleInitialize. -/
def initResult (name version : String) : Json :=
  mkObj [("protocolVersion", .str "2024-11-05"),
    ("capabilities", mkObj [("tools", mkObj [])]),
    ("serverInfo", mkObj [("name", .str name), ("version", .str version)])]

/-- SimpleMCPServer::handleInitialize. -/
def handleInitialize (name version : String) (id : Json) : String :=
  sendResponse id (initResult name version)

/-- The dispatch on the method string inside SimpleMCPServer::run, applied
to one parsed request.  An Except.error models a nlohmann exception leaving
this block. -/
def dispatch (srv : ServerState) (request : Json) : Except CppExc (List String) :=
  match request.valueJ "id" Json.null with
  | .error e => .error e
  | .ok id =>
    match request.valueStr "method" "" with
    | .error e => .error e
    | .ok method =>
      if method = "initialize" then .ok [handleInitialize srv.serverName srv.serverVersion id]
      else if method = "notifications/cancelled" then .ok []
      else if method = "notifications/initialized" then .ok []
      else if method = "tools/list" then handleToolsListRequest srv.tools id
      else if method = "tools/call" then
        match request.valueJ "params" (mkObj []) with
        | .error e => .error e
        | .ok params =>
          match params.valueStr "name" "" with
          | .error e => .error e
          | .ok toolName =>
            match params.valueJ "arguments" (mkObj []) with
            | .error e => .error e
            | .ok arguments => handleToolCall srv.tools id toolName arguments
      else .ok [sendError id (-32601) ("Method not found: " ++ method)]

/-- One iteration of the read loop in SimpleMCPServer::run, applied to one
input line: empty lines are skipped, parse errors of the line and of the
dispatched handlers are answered with code -32700 and null id, and any other
exception escapes (Except.error, terminating the process). -/
def processLine (srv : ServerState) (line : String) : Except CppExc (List String) :=
  if line = "" then .ok []
  else
    match parseJson line with
    | .error m => .ok [sendError Json.null (-32700) ("Parse error: " ++ m)]
    | .ok request =>
      match dispatch srv request with
      | .ok outs => .ok outs
      | .error (.parseError m) => .ok [sendError Json.null (-32700) ("Parse error: " ++ m)]
      | .error e => .error e

/-- The whole SimpleMCPServer::run loop over a list of input lines: the
output lines in order, and the uncaught exception if one ended the process
early. -/
def runLines (srv : ServerState) : List String → List String × Option CppExc
  | [] => ([], none)
  | l :: ls =>
    match processLine srv l with
    | .error e => ([], some e)
    | .ok outs =>
      let r := runLines srv ls
      (outs ++ r.1, r.2)

/-- The describe object of HelloTool (hello.cpp, HelloTool::describe). -/
def helloDescribeJson : Json :=
  mkObj [("name", .str "HelloTool"),
    ("description", .str "A tool that greets users"),
    ("inputSchema", mkObj [("type", .str "object"),
      ("properties", mkObj [
        ("value", mkObj [("type", .str "string"), ("description", .str "User name to greet")]),
        ("birthday", mkObj [("type", .str "string"), ("description", .str "User\x27s birthday")])])]),
    ("required", .arr [.str "value"])]

/-- HelloTool::call (hello.cpp): parse the arguments, read value and
birthday with defaults, build the greeting, return a one-element content
array; only json::parse failures are caught and reported as an error
content item, while the type_error raised by value() on a non-string field
escapes. -/
def helloCall (args : String) : Except CppExc Json :=
  match parseJson args with
  | .error _ => .ok (.arr [mkObj [("type", .str "text"), ("text", .str "Error: Invalid arguments")]])
  | .ok arguments =>
    match arguments.valueStr "value" "World" with
    | .error e => .error e
    | .ok userName =>
      match arguments.valueStr "birthday" "" with
      | .error e => .error e
      | .ok userBirthday =>
        let fullName := if userBirthday ≠ "" then userName ++ " (born on " ++ userBirthday ++ ")" else userName
        .ok (.arr [mkObj [("type", .str "text"), ("text", .str ("Hello " ++ fullName ++ "!"))]])

/-- The greeting tool of hello.cpp as a registry entry. -/
def helloTool : McpTool :=
  { name := "HelloTool", describe := Json.dump helloDescribeJson, call := helloCall }

/-- A second tool carrying the same name, used to exercise the overwrite
semantics of registration. -/
def helloToolAlt : McpTool :=
  { name := "HelloTool", describe := "alternative", call := fun _ => .ok Json.null }

/-- The server of hello.cpp main, restricted to the greeting tool (the
second registered tool only reads a file, which has no bearing on any
claim). -/
def greetingServer : ServerState :=
  { serverName := "GreetingServer", serverVersion := "1.0.0",
    tools := registerTool [] helloTool }

/-- The tools/call scenario line of the specification. -/
def c1Line : String :=
  "\x7b\"method\":\"tools/call\",\"params\":\x7b\"name\":\"HelloTool\",\"arguments\":\x7b\"value\":\"Ada\"\x7d\x7d,\"id\":4,\"jsonrpc\":\"2.0\"\x7d"

/-- String read of an object field with a default, used to phrase the
amended greeting claim. -/
def getStrD (fs : List (String × Json)) (k : String) (d : String) : String :=
  match objLookup fs k with
  | some (.str s) => s
  | _ => d

/-- The field is absent or holds a string. -/
def stringOrAbsent (fs : List (String × Json)) (k : String) : Prop :=
  objLookup fs k = none ∨ ∃ s, objLookup fs k = some (Json.str s)

/-- The greeting text HelloTool builds from parsed arguments. -/
def helloGreeting (fs : List (String × Json)) : String :=
  "Hello " ++
    (if getStrD fs "birthday" "" ≠ "" then
      getStrD fs "value" "World" ++ " (born on " ++ getStrD fs "birthday" "" ++ ")"
    else getStrD fs "value" "World") ++ "!"

theorem char_eq_of_toNat_eq {a b : Char} (h : a.toNat = b.toNat) : a = b :=
  Char.ext (UInt32.ext h)

theorem strLtB_irrefl (l : List Char) : strLtB l l = false := by
  induction l with
  | nil => rfl
  | cons a as ih => simp [strLtB, ih]

theorem strLtB_trans (a : List Char) : ∀ b c, strLtB a b = true → strLtB b c = true →
    strLtB a c = true := by
  induction a with
  | nil =>
    intro b c h1 h2
    cases c with
    | nil => cases b <;> simp [strLtB] at h2
    | cons z zs => rfl
  | cons x xs ih =>
    intro b c h1 h2
    cases b with
    | nil => simp [strLtB] at h1
    | cons y ys =>
      cases c with
      | nil => simp [strLtB] at h2
      | cons z zs =>
        rcases Nat.lt_trichotomy x.toNat y.toNat with hxy | hxy | hxy
        · rcases Nat.lt_trichotomy y.toNat z.toNat with hyz | hyz | hyz
          · simp [strLtB, Nat.lt_trans hxy hyz]
          · simp [strLtB, hyz ▸ hxy]
          · simp [strLtB, Nat.lt_asymm hyz, hyz] at h2
        · rcases Nat.lt_trichotomy y.toNat z.toNat with hyz | hyz | hyz
          · simp [strLtB, hxy ▸ hyz]
          · have hxz : x.toNat = z.toNat := hxy.trans hyz
            have h1' : strLtB xs ys = true := by simpa [strLtB, hxy] using h1
            have h2' : strLtB ys zs = true := by simpa [strLtB, hyz] using h2
            simp [strLtB, hxz, ih ys zs h1', h2']
          · simp [strLtB, Nat.lt_asymm hyz, hyz] at h2
        · simp [strLtB, Nat.lt_asymm hxy, hxy] at h1

theorem strLtB_total (a : List Char) : ∀ b, strLtB a b = false → strLtB b a = false →
    a = b := by
  induction a with
  | nil =>
    intro b h1 _
    cases b with
    | nil => rfl
    | cons y ys => simp [strLtB] at h1
  | cons x xs ih =>
    intro b h1 h2
    cases b with
    | nil => simp [strLtB] at h2
    | cons y ys =>
      rcases Nat.lt_trichotomy x.toNat y.toNat with h | h | h
      · simp [strLtB, h] at h1
      · have hxy : x = y := char_eq_of_toNat_eq h
        subst hxy
        have h1' : strLtB xs ys = false := by simpa [strLtB] using h1
        have h2' : strLtB ys xs = false := by simpa [strLtB] using h2
        rw [ih ys h1' h2']
      · simp [strLtB, Nat.lt_asymm h, h] at h2

theorem strLt_trans {a b c : String} (h1 : strLt a b = true) (h2 : strLt b c = true) :
    strLt a c = true :=
  strLtB_trans a.data b.data c.data h1 h2

theorem strLt_ne {a b : String} (h : strLt a b = true) : a ≠ b := by
  intro he
  subst he
  rw [strLt, strLtB_irrefl] at h
  exact Bool.false_ne_true h

theorem strLt_total {a b : String} (h1 : strLt a b = false) (h2 : strLt b a = false) :
    a = b := by
  have hd := strLtB_total a.data b.data h1 h2
  cases a
  cases b
  exact congrArg String.mk hd

theorem skipWs_eq_nil (l : List Char) (h : ∀ c ∈ l, isJsonWs c = true) : skipWs l = [] := by
  induction l with
  | nil => rfl
  | cons c rest ih =>
    have hc : isJsonWs c = true := h c (List.mem_cons_self c rest)
    simp [skipWs, hc]
    exact ih (fun d hd => h d (List.mem_cons_of_mem c hd))

theorem mem_toolInsert (t : McpTool) (reg : List (String × McpTool)) (p : String × McpTool)
    (hp : p ∈ toolInsert t reg) : p = (t.name, t) ∨ p ∈ reg := by
  induction reg with
  | nil => exact Or.inl (by simpa [toolInsert] using hp)
  | cons q rest ih =>
    obtain ⟨k, u⟩ := q
    by_cases h1 : t.name = k
    · rw [toolInsert, if_pos h1] at hp
      rcases List.mem_cons.mp hp with h | h
      · exact Or.inl h
      · exact Or.inr (List.mem_cons_of_mem _ h)
    · by_cases h2 : strLt t.name k = true
      · rw [toolInsert, if_neg h1, if_pos h2] at hp
        rcases List.mem_cons.mp hp with h | h
        · exact Or.inl h
        · exact Or.inr h
      · rw [toolInsert, if_neg h1, if_neg h2] at hp
        rcases List.mem_cons.mp hp with h | h
        · exact Or.inr (h ▸ List.mem_cons_self _ _)
        · rcases ih h with h3 | h3
          · exact Or.inl h3
          · exact Or.inr (List.mem_cons_of_mem _ h3)

theorem toolInsert_sorted (t : McpTool) {reg : List (String × McpTool)} (h : regSorted reg) :
    regSorted (toolInsert t reg) := by
  induction reg with
  | nil => simp [toolInsert, regSorted]
  | cons q rest ih =>
    obtain ⟨k, u⟩ := q
    rw [regSorted, List.pairwise_cons] at h
    obtain ⟨hk, hrest⟩ := h
    by_cases h1 : t.name = k
    · rw [toolInsert, if_pos h1, regSorted, List.pairwise_cons]
      exact ⟨fun b hb => by simpa [h1] using hk b hb, hrest⟩
    · by_cases h2 : strLt t.name k = true
      · rw [toolInsert, if_neg h1, if_pos h2, regSorted, List.pairwise_cons]
        constructor
        · intro b hb
          rcases List.mem_cons.mp hb with h3 | h3
          · rw [h3]
            exact h2
          · exact strLt_trans h2 (hk b h3)
        · exact List.Pairwise.cons hk hrest
      · rw [toolInsert, if_neg h1, if_neg h2, regSorted, List.pairwise_cons]
        constructor
        · intro b hb
          rcases mem_toolInsert t rest b hb with h3 | h3
          · rw [h3]
            show strLt k t.name = true
            by_contra h4
            have h2f : strLt t.name k = false := by simpa using h2
            have h4f : strLt k t.name = false := by simpa using h4
            exact h1 (strLt_total h2f h4f)
          · exact hk b h3
        · exact ih hrest

theorem lookupTool_toolInsert (t : McpTool) (reg : List (String × McpTool)) :
    lookupTool (toolInsert t reg) t.name = some t := by
  induction reg with
  | nil => simp [toolInsert, lookupTool]
  | cons q rest ih =>
    obtain ⟨k, u⟩ := q
    by_cases h1 : t.name = k
    · simp [toolInsert, h1, lookupTool]
    · by_cases h2 : strLt t.name k = true
      · simp [toolInsert, h1, h2, lookupTool]
      · simp [toolInsert, h1, h2, lookupTool, Ne.symm h1, ih]

theorem countName_cons (p : String × McpTool) (rest : List (String × McpTool)) (n : String) :
    countName (p :: rest) n = (if p.1 = n then 1 else 0) + countName rest n := by
  by_cases hp : p.1 = n
  · simp [countName, List.filter_cons, hp]
    omega
  · simp [countName, List.filter_cons, hp]

theorem countName_zero (reg : List (String × McpTool)) (n : String)
    (h : ∀ p ∈ reg, p.1 ≠ n) : countName reg n = 0 := by
  induction reg with
  | nil => rfl
  | cons q rest ih =>
    have hq : ¬(q.1 = n) := h q (List.mem_cons_self q rest)
    rw [countName_cons, if_neg hq, ih (fun p hp => h p (List.mem_cons_of_mem q hp))]

theorem countName_toolInsert (t : McpTool) (reg : List (String × McpTool))
    (h : regSorted reg) : countName (toolInsert t reg) t.name = 1 := by
  induction reg with
  | nil => simp [toolInsert, countName, List.filter_cons]
  | cons q rest ih =>
    obtain ⟨k, u⟩ := q
    rw [regSorted, List.pairwise_cons] at h
    obtain ⟨hk, hrest⟩ := h
    by_cases h1 : t.name = k
    · have hz : countName rest t.name = 0 := countName_zero rest t.name
        (fun p hp he => strLt_ne (hk p hp) (he.trans h1).symm)
      rw [toolInsert, if_pos h1, countName_cons]
      simp [hz]
    · by_cases h2 : strLt t.name k = true
      · have hk2 : ¬(k = t.name) := fun he => h1 he.symm
        have hz : countName rest t.name = 0 := countName_zero rest t.name
          (fun p hp he => strLt_ne (strLt_trans h2 (hk p hp)) he.symm)
        rw [toolInsert, if_neg h1, if_pos h2, countName_cons, countName_cons]
        simp [hk2, hz]
      · have hk2 : ¬(k = t.name) := fun he => h1 he.symm
        rw [toolInsert, if_neg h1, if_neg h2, countName_cons, if_neg hk2, ih hrest]

theorem handleToolCall_ne_nil (reg : List (String × McpTool)) (id : Json) (n : String)
    (args : Json) : handleToolCall reg id n args ≠ Except.ok [] := by
  unfold handleToolCall
  split
  · simp
  · split
    · simp
    · split
      · simp
      · simp

theorem handleToolsListRequest_ne_nil (reg : List (String × McpTool)) (id : Json) :
    handleToolsListRequest reg id ≠ Except.ok [] := by
  unfold handleToolsListRequest
  split <;> simp

/-- Claim C1 (code defect): the specified tools/call scenario does not produce
the result with content text "Hello Ada!".  HelloTool.call does return the
proper one-element content array, but handleToolCall converts the tool return
value to std::string, which raises type_error 302 for an array; run only
catches parse_error, so the exception is uncaught and the process dies
without any response.  The dispatcher also never passes a content array
through: it always nests the value inside a text item. -/
theorem c1_toolcall_scenario_uncaught_type_error :
    helloCall "\x7b\"value\":\"Ada\"\x7d" =
      Except.ok (Json.arr [Json.obj [("text", Json.str "Hello Ada!"), ("type", Json.str "text")]]) ∧
    processLine greetingServer c1Line =
      Except.error (CppExc.typeError "type must be string, but is array") :=
  ⟨rfl, rfl⟩

/-- Claim C2 counterexample: a request-shaped message without an id whose
method is initialize does get a response (with id null), refuting that no
response is ever produced for id-less messages. -/
theorem c2_idless_initialize_counterexample :
    parseJson "\x7b\"jsonrpc\":\"2.0\",\"method\":\"initialize\"\x7d" =
      Except.ok (Json.obj [("jsonrpc", Json.str "2.0"), ("method", Json.str "initialize")]) ∧
    objLookup [("jsonrpc", Json.str "2.0"), ("method", Json.str "initialize")] "id" = none ∧
    processLine greetingServer "\x7b\"jsonrpc\":\"2.0\",\"method\":\"initialize\"\x7d" =
      Except.ok [sendResponse Json.null (initResult "GreetingServer" "1.0.0")] ∧
    [sendResponse Json.null (initResult "GreetingServer" "1.0.0")] ≠ ([] : List String) :=
  ⟨rfl, rfl, rfl, by simp⟩

/-- Claim C2 (amended): the server stays silent exactly for the methods
notifications/initialized and notifications/cancelled; an absent id does not
make a message a notification, it is read as id null and answered like any
request. -/
theorem c2_notifications_only_silent (srv : ServerState) (fs : List (String × Json)) (m : String)
    (hm : (Json.obj fs).valueStr "method" "" = .ok m) :
    (dispatch srv (Json.obj fs) = Except.ok [] ↔
      m = "notifications/initialized" ∨ m = "notifications/cancelled") := by
  by_cases h1 : m = "initialize"
  · subst h1
    simp [dispatch, Json.valueJ, hm]
  · by_cases h2 : m = "notifications/cancelled"
    · subst h2
      simp [dispatch, Json.valueJ, hm]
    · by_cases h3 : m = "notifications/initialized"
      · subst h3
        simp [dispatch, Json.valueJ, hm]
      · by_cases h4 : m = "tools/list"
        · subst h4
          simp [dispatch, Json.valueJ, hm]
          exact handleToolsListRequest_ne_nil _ _
        · by_cases h5 : m = "tools/call"
          · subst h5
            simp [dispatch, Json.valueJ, hm]
            rcases hP : (objLookup fs "params").getD (mkObj []) with _ | b | n | s | es | pfs <;>
              simp [hP, Json.valueStr, Json.valueJ]
            rcases hname : objLookup pfs "name" with _ | v
            · simp [hname]
              exact handleToolCall_ne_nil _ _ _ _
            · rcases v with _ | b2 | n2 | s2 | es2 | fs2 <;> simp [hname]
              exact handleToolCall_ne_nil _ _ _ _
          · simp [dispatch, Json.valueJ, hm, h1, h2, h3, h4, h5]

/-- Witness for claim C2 (amended) at a concrete notification. -/
theorem c2_notifications_only_silent_witness :
    dispatch greetingServer (Json.obj [("method", Json.str "notifications/initialized")]) =
      Except.ok [] :=
  (c2_notifications_only_silent greetingServer [("method", Json.str "notifications/initialized")]
    "notifications/initialized" rfl).mpr (Or.inl rfl)

/-- Claim C3: a non-empty line that is not valid JSON yields exactly one
error response with id null, code -32700 and a message carrying the parse
diagnostic, and the loop then continues with the remaining lines
unaffected. -/
theorem c3_parse_error_recovery (srv : ServerState) (line m : String) (rest : List String)
    (hne : line ≠ "") (hp : parseJson line = .error m) :
    runLines srv (line :: rest) =
      (sendError Json.null (-32700) ("Parse error: " ++ m) :: (runLines srv rest).1,
       (runLines srv rest).2) := by
  simp [runLines, processLine, hne, hp]

/-- Witness for claim C3 at a concrete invalid line. -/
theorem c3_parse_error_recovery_witness :
    ("not json" : String) ≠ "" ∧
    parseJson "not json" = Except.error "invalid literal" ∧
    runLines greetingServer ["not json"] =
      (sendError Json.null (-32700) ("Parse error: " ++ "invalid literal") ::
        (runLines greetingServer []).1,
       (runLines greetingServer []).2) :=
  ⟨by decide, rfl,
   c3_parse_error_recovery greetingServer "not json" "invalid literal" [] (by decide) rfl⟩

/-- Claim C4 counterexample: a line holding a single space is not skipped
silently; the run loop only skips exactly empty lines, and the space line
reaches the parser and is answered with a -32700 error response. -/
theorem c4_whitespace_line_counterexample :
    processLine greetingServer " " ≠ Except.ok [] := by
  decide

/-- Claim C4 (amended): only the exactly empty line is skipped with no
output; a non-empty line consisting of whitespace is handed to the parser
and yields one parse-error response with id null and code -32700. -/
theorem c4_blank_line_amended (srv : ServerState) (line : String)
    (hws : ∀ c ∈ line.data, isJsonWs c = true) :
    processLine srv line =
      (if line = "" then Except.ok []
       else Except.ok [sendError Json.null (-32700)
         ("Parse error: " ++ "unexpected end of input")]) := by
  by_cases h : line = ""
  · simp [processLine, h]
  · have hnil : skipWs line.data = [] := skipWs_eq_nil line.data hws
    simp [processLine, h, parseJson, hnil]

/-- Witness for claim C4 (amended) at the single-space line. -/
theorem c4_blank_line_amended_witness :
    processLine greetingServer " " =
      (if (" " : String) = "" then Except.ok []
       else Except.ok [sendError Json.null (-32700)
         ("Parse error: " ++ "unexpected end of input")]) :=
  c4_blank_line_amended greetingServer " " (by decide)

/-- Claim C5: a tools/call naming an unregistered tool is answered with an
error response carrying code -32602 and the message naming the tool, and no
tool is invoked (the handler returns before any call operation is
reached). -/
theorem c5_unknown_tool_error (reg : List (String × McpTool)) (id : Json) (toolName : String)
    (args : Json) (h : lookupTool reg toolName = none) :
    handleToolCall reg id toolName args =
      Except.ok [sendError id (-32602) ("Method not found: " ++ toolName)] := by
  simp [handleToolCall, h]

/-- Witness for claim C5 against the greeting-server registry. -/
theorem c5_unknown_tool_error_witness :
    lookupTool greetingServer.tools "NoSuchTool" = none ∧
    handleToolCall greetingServer.tools (Json.num 7) "NoSuchTool" (mkObj []) =
      Except.ok [sendError (Json.num 7) (-32602) ("Method not found: " ++ "NoSuchTool")] :=
  ⟨rfl, c5_unknown_tool_error greetingServer.tools (Json.num 7) "NoSuchTool" (mkObj []) rfl⟩

/-- Claim C6: a parsed request whose method is none of the five recognized
strings is answered with an error response carrying code -32601 and a
message naming the method. -/
theorem c6_unknown_method_error (srv : ServerState) (fs : List (String × Json)) (m : String)
    (hm : (Json.obj fs).valueStr "method" "" = .ok m)
    (h1 : m ≠ "initialize") (h2 : m ≠ "notifications/cancelled")
    (h3 : m ≠ "notifications/initialized") (h4 : m ≠ "tools/list") (h5 : m ≠ "tools/call") :
    dispatch srv (Json.obj fs) =
      Except.ok [sendError ((objLookup fs "id").getD Json.null) (-32601)
        ("Method not found: " ++ m)] := by
  simp [dispatch, Json.valueJ, hm, h1, h2, h3, h4, h5]

/-- Witness for claim C6 at a concrete unknown method. -/
theorem c6_unknown_method_error_witness :
    dispatch greetingServer (Json.obj [("id", Json.num 2), ("method", Json.str "foo/bar")]) =
      Except.ok [sendError ((objLookup [("id", Json.num 2), ("method", Json.str "foo/bar")]
        "id").getD Json.null) (-32601) ("Method not found: " ++ "foo/bar")] :=
  c6_unknown_method_error greetingServer [("id", Json.num 2), ("method", Json.str "foo/bar")]
    "foo/bar" rfl (by decide) (by decide) (by decide) (by decide) (by decide)

/-- Claim C7: an initialize request always succeeds, the response envelope
carries the id read from the request (null when absent) together with a
result, and the result holds the fixed protocol version, the tools
capability object and the configured server name and version. -/
theorem c7_initialize_success (srv : ServerState) (fs : List (String × Json))
    (hm : (Json.obj fs).valueStr "method" "" = .ok "initialize") :
    dispatch srv (Json.obj fs) =
      Except.ok [sendResponse ((objLookup fs "id").getD Json.null)
        (initResult srv.serverName srv.serverVersion)] ∧
    objGet (initResult srv.serverName srv.serverVersion) "protocolVersion" =
      some (Json.str "2024-11-05") ∧
    objGet (initResult srv.serverName srv.serverVersion) "capabilities" =
      some (mkObj [("tools", mkObj [])]) ∧
    objGet (initResult srv.serverName srv.serverVersion) "serverInfo" =
      some (mkObj [("name", Json.str srv.serverName), ("version", Json.str srv.serverVersion)]) := by
  refine ⟨?_, rfl, rfl, rfl⟩
  simp [dispatch, Json.valueJ, hm, handleInitialize]

/-- Witness for claim C7 at a concrete initialize request. -/
theorem c7_initialize_success_witness :
    dispatch greetingServer (Json.obj [("id", Json.num 0), ("method", Json.str "initialize")]) =
      Except.ok [sendResponse ((objLookup [("id", Json.num 0), ("method", Json.str "initialize")]
        "id").getD Json.null)
        (initResult greetingServer.serverName greetingServer.serverVersion)] ∧
    objGet (initResult greetingServer.serverName greetingServer.serverVersion) "protocolVersion" =
      some (Json.str "2024-11-05") ∧
    objGet (initResult greetingServer.serverName greetingServer.serverVersion) "capabilities" =
      some (mkObj [("tools", mkObj [])]) ∧
    objGet (initResult greetingServer.serverName greetingServer.serverVersion) "serverInfo" =
      some (mkObj [("name", Json.str greetingServer.serverName),
        ("version", Json.str greetingServer.serverVersion)]) :=
  c7_initialize_success greetingServer [("id", Json.num 0), ("method", Json.str "initialize")] rfl

/-- Claim C8: registration keeps names unique: inserting two tools carrying
the same name leaves a registry that still satisfies the sorted-unique map
invariant, holds exactly one binding for that name, and binds it to the tool
registered last. -/
theorem c8_register_last_wins (reg : List (String × McpTool)) (h : regSorted reg)
    (t1 t2 : McpTool) (_hn : t1.name = t2.name) :
    regSorted (registerTool (registerTool reg t1) t2) ∧
    countName (registerTool (registerTool reg t1) t2) t2.name = 1 ∧
    lookupTool (registerTool (registerTool reg t1) t2) t2.name = some t2 := by
  have hs1 : regSorted (toolInsert t1 reg) := toolInsert_sorted t1 h
  exact ⟨toolInsert_sorted t2 hs1, countName_toolInsert t2 _ hs1, lookupTool_toolInsert t2 _⟩

/-- Witness for claim C8: registering the greeting tool twice under its
name leaves one binding, the second tool. -/
theorem c8_register_last_wins_witness :
    regSorted (registerTool (registerTool [] helloTool) helloToolAlt) ∧
    countName (registerTool (registerTool [] helloTool) helloToolAlt) helloToolAlt.name = 1 ∧
    lookupTool (registerTool (registerTool [] helloTool) helloToolAlt) helloToolAlt.name =
      some helloToolAlt :=
  c8_register_last_wins [] (by simp [regSorted]) helloTool helloToolAlt rfl

/-- Claim C9: a tools/list request whose registry describes parse (which the
tool contract guarantees) always succeeds, and the result holds the parsed
describe objects in registry iteration order; an empty registry yields the
empty tools array. -/
theorem c9_tools_list_success (srv : ServerState) (fs : List (String × Json)) (ds : List Json)
    (hm : (Json.obj fs).valueStr "method" "" = .ok "tools/list")
    (hds : describeTools srv.tools = .ok ds) :
    dispatch srv (Json.obj fs) =
      Except.ok [sendResponse ((objLookup fs "id").getD Json.null)
        (mkObj [("tools", Json.arr ds)])] := by
  simp [dispatch, Json.valueJ, hm, handleToolsListRequest, hds]

/-- Witness for claim C9: the scenario request with id 1 against an empty
registry is answered with id 1 and the empty tools list. -/
theorem c9_tools_list_success_witness :
    dispatch ⟨"GreetingServer", "1.0.0", []⟩
      (Json.obj [("id", Json.num 1), ("jsonrpc", Json.str "2.0"),
        ("method", Json.str "tools/list")]) =
      Except.ok [sendResponse ((objLookup [("id", Json.num 1), ("jsonrpc", Json.str "2.0"),
        ("method", Json.str "tools/list")] "id").getD Json.null)
        (mkObj [("tools", Json.arr [])])] :=
  c9_tools_list_success ⟨"GreetingServer", "1.0.0", []⟩
    [("id", Json.num 1), ("jsonrpc", Json.str "2.0"), ("method", Json.str "tools/list")]
    [] rfl rfl

/-- Claim C10 counterexample: an argument text that parses as a JSON object
whose value field holds a number does not make HelloTool.call return a
content array: value() raises type_error 302, which the local catch (parse
errors only) does not stop. -/
theorem c10_nonstring_value_counterexample :
    parseJson "\x7b\"value\":1\x7d" = Except.ok (Json.obj [("value", Json.num 1)]) ∧
    helloCall "\x7b\"value\":1\x7d" =
      Except.error (CppExc.typeError "type must be string, but is number") :=
  ⟨rfl, rfl⟩

/-- Claim C10 (amended): for arguments parsing as a JSON object whose value
and birthday fields, when present, are strings, HelloTool.call returns the
one-element content array with the greeting (value defaulting to World,
birthday appended when non-empty); for arguments that are not valid JSON it
returns the one-element error content array instead of raising. -/
theorem c10_hello_call_amended (args : String) :
    (∀ fs, parseJson args = .ok (Json.obj fs) →
      stringOrAbsent fs "value" → stringOrAbsent fs "birthday" →
      helloCall args =
        Except.ok (Json.arr [mkObj [("type", Json.str "text"),
          ("text", Json.str (helloGreeting fs))]])) ∧
    (∀ m, parseJson args = .error m →
      helloCall args =
        Except.ok (Json.arr [mkObj [("type", Json.str "text"),
          ("text", Json.str "Error: Invalid arguments")]])) := by
  constructor
  · intro fs hp hv hb
    rcases hv with hv | ⟨sv, hv⟩ <;> rcases hb with hb | ⟨sb, hb⟩ <;>
      simp [helloCall, hp, Json.valueStr, hv, hb, helloGreeting, getStrD]
  · intro m hp
    simp [helloCall, hp]

/-- Witness for claim C10 (amended) at concrete arguments, one valid with
both fields and one invalid. -/
theorem c10_hello_call_amended_witness :
    helloCall "\x7b\"value\":\"Ada\",\"birthday\":\"June 1\"\x7d" =
      Except.ok (Json.arr [mkObj [("type", Json.str "text"),
        ("text", Json.str (helloGreeting
          [("birthday", Json.str "June 1"), ("value", Json.str "Ada")]))]]) ∧
    helloCall "nope" =
      Except.ok (Json.arr [mkObj [("type", Json.str "text"),
        ("text", Json.str "Error: Invalid arguments")]]) :=
  ⟨(c10_hello_call_amended "\x7b\"value\":\"Ada\",\"birthday\":\"June 1\"\x7d").1
      [("birthday", Json.str "June 1"), ("value", Json.str "Ada")] rfl
      (Or.inr ⟨"Ada", rfl⟩) (Or.inr ⟨"June 1", rfl⟩),
   (c10_hello_call_amended "nope").2 "invalid literal" rfl⟩
